import Mathlib

/-!
A shallow embedding of the credential / fetch / archive core of
`gmail_archiver.py`, together with theorems settling the spec's claims
about it.

The remote API is modelled by the data the program observes from it:

* a listing service is a sequence of `Page`s linked by the continuation
  protocol (`list_next` yields a request for the next page exactly when
  one exists; the last page carries no continuation);
* executing a page request may raise (`Page.raises`), modelling
  `HttpError` or any other exception from `request.execute()`;
* the archive mutation for the item at call index `i` may raise,
  modelled by a predicate `raisesAt : Nat → Bool`;
* the credential environment (`AuthEnv`) fixes the outcome of each
  external step of `authenticate_gmail`: token-file load, token refresh,
  interactive OAuth flow, token save and service build.

Each embedded operation returns, besides the value the Python function
returns, a trace of the observable effects (page requests executed,
continuation requests obtained, mutation calls issued, flow launches,
refresh attempts, build attempts), so that the spec's counting claims
can be stated.
-/

namespace GmailArchiver

/-- One page of a `users().messages().list` response.  `messages = none`
models a response JSON without a `messages` field; `messages = some l`
a response whose `messages` field lists exactly the ids `l` (in order);
`raises = true` models `request.execute()` raising for this page. -/
structure Page where
  messages : Option (List String)
  raises : Bool
  deriving Repr, DecidableEq

/-- `response.get('messages', [])` followed by `[msg['id'] for msg in messages]`:
the ids carried by a page, an absent field contributing none. -/
def Page.msgIds (p : Page) : List String := p.messages.getD []

/-- Observable outcome of one `fetch_inbox_emails` run: the accumulated
`message_ids`, the number of page requests executed, the number of page
requests obtained through `list_next` (continuation protocol), and
whether an exception was raised (and caught) during the loop. -/
structure FetchTrace where
  ids : List String
  executes : Nat
  contRequests : Nat
  failed : Bool
  deriving Repr, DecidableEq

/-- The `while request is not None` loop of `fetch_inbox_emails`, entered
with a request for the head of `pages`; the continuation obtained by
`list_next` is a request for the next page when one exists and `None`
otherwise.  An empty `pages` means the current request is `None` and the
loop does not run. -/
def fetchGo : List Page → FetchTrace
  | [] => ⟨[], 0, 0, false⟩
  | p :: rest =>
    if p.raises then ⟨[], 1, 0, true⟩
    else if p.msgIds = [] then ⟨[], 1, 0, false⟩
    else
      let t := fetchGo rest
      ⟨p.msgIds ++ t.ids, t.executes + 1,
        if rest = [] then t.contRequests else t.contRequests + 1,
        t.failed⟩

/-- Shallow embedding of `fetch_inbox_emails` (gmail_archiver.py,
lines 135-168): runs the pagination loop from the initial request and
returns the accumulated ids, except that any exception raised inside the
`try` block is caught and the empty list is returned instead. -/
def fetch_inbox_emails (pages : List Page) : List String :=
  let t := fetchGo pages
  if t.failed then [] else t.ids

/-- Observable outcome of one `archive_emails` run: the returned
`archived_count` and the ids for which a `modify` mutation request was
issued, in call order. -/
structure ArchiveTrace where
  count : Nat
  calls : List String
  deriving Repr, DecidableEq

/-- The `for i, message_id in enumerate(message_ids)` loop of
`archive_emails`, with `i` the enumeration index of the head:
each iteration issues the mutation for its id; if `raisesAt i` the call
raises `HttpError` (or any exception), which is caught and the counter
is not incremented; otherwise the counter is incremented.  The loop
never stops early. -/
def archiveGo (raisesAt : Nat → Bool) : Nat → List String → ArchiveTrace
  | _, [] => ⟨0, []⟩
  | i, m :: rest =>
    let t := archiveGo raisesAt (i + 1) rest
    ⟨(if raisesAt i then 0 else 1) + t.count, m :: t.calls⟩

/-- Shallow embedding of `archive_emails` (gmail_archiver.py,
lines 170-210): on empty input it returns 0 immediately, issuing no
request; otherwise it runs the per-item loop and returns its count. -/
def archive_emails (raisesAt : Nat → Bool) (message_ids : List String) :
    ArchiveTrace :=
  if message_ids = [] then ⟨0, []⟩
  else archiveGo raisesAt 0 message_ids

/-- A credential bundle as `authenticate_gmail` observes it: its
validity flag, its expiry flag and whether a refresh token is present
(`creds.valid`, `creds.expired`, `creds.refresh_token`). -/
structure Cred where
  valid : Bool
  expired : Bool
  refresh_token : Bool
  deriving Repr, DecidableEq

/-- Outcome of `creds.refresh(Request())`: either it raises, or it
succeeds leaving the (mutated-in-place) credential equal to `c`. -/
inductive RefreshOutcome where
  | raises
  | refreshed (c : Cred)
  deriving Repr, DecidableEq

/-- Outcome of the interactive OAuth flow
(`InstalledAppFlow.from_client_secrets_file` + `flow.run_local_server`):
it raises, returns a falsy value, or returns the credential `c`. -/
inductive FlowOutcome where
  | raises
  | noCreds
  | granted (c : Cred)
  deriving Repr, DecidableEq

/-- The environment of one `authenticate_gmail` run: the outcome of each
external step is fixed in advance.  `loadResult = none` models
`Credentials.from_authorized_user_file` raising (parse failure treated
as absence). -/
structure AuthEnv where
  tokenFileExists : Bool
  loadResult : Option Cred
  refreshResult : RefreshOutcome
  configExists : Bool
  flowResult : FlowOutcome
  saveOk : Bool
  buildOk : Bool
  deriving Repr, DecidableEq

/-- Observable outcome of one `authenticate_gmail` run.  `result = some c`
means an authorized service built over credential `c` was returned;
`result = none` means `None` was returned.  `flowRuns` counts launches of
the interactive OAuth flow, `refreshAttempts` calls of `creds.refresh`,
`buildAttempts` calls of `build`, and `reachedNoCred` records entering
the `if not creds` fallback block with no usable credential. -/
structure AuthTrace where
  result : Option Cred
  flowRuns : Nat
  refreshAttempts : Nat
  buildAttempts : Nat
  reachedNoCred : Bool
  savedToken : Bool
  deriving Repr, DecidableEq

/-- The network calls a run makes: token refreshes, OAuth flow
exchanges, and service builds. -/
def networkCalls (t : AuthTrace) : Nat :=
  t.refreshAttempts + t.flowRuns + t.buildAttempts

/-- Tail of `authenticate_gmail` (lines 108-133): save the token when it
was modified and a credential is present, run the final validity check,
and build the service (which may itself fail, yielding `None`). -/
def finishAuth (env : AuthEnv) (creds : Option Cred) (dirty : Bool)
    (flowRuns refreshAttempts : Nat) (reached : Bool) : AuthTrace :=
  let saved := dirty && creds.isSome && env.saveOk
  match creds with
  | none => ⟨none, flowRuns, refreshAttempts, 0, reached, saved⟩
  | some c =>
    if c.valid then
      ⟨if env.buildOk then some c else none,
        flowRuns, refreshAttempts, 1, reached, saved⟩
    else
      ⟨none, flowRuns, refreshAttempts, 0, reached, saved⟩

/-- The `try` block of the OAuth-flow attempt (lines 91-106), dispatched
on the flow's outcome: a raise returns `None` at once; a falsy result
leaves `creds = None` and falls through to the tail; a granted
credential becomes `creds` (marked dirty) and falls through to the
tail.  `ra` is the number of refresh attempts already made. -/
def flowStep (env : AuthEnv) (ra : Nat) : FlowOutcome → AuthTrace
  | .raises => ⟨none, 1, ra, 0, true, false⟩
  | .noCreds => finishAuth env none false 1 ra true
  | .granted c => finishAuth env (some c) true 1 ra true

/-- The `if not creds` fallback block of `authenticate_gmail`
(lines 85-106): if `credentials.json` is absent, return `None` at once;
otherwise launch the interactive flow. -/
def runFlow (env : AuthEnv) (refreshAttempts : Nat) : AuthTrace :=
  if env.configExists then flowStep env refreshAttempts env.flowResult
  else ⟨none, 0, refreshAttempts, 0, true, false⟩

/-- The refresh attempt (lines 70-78), dispatched on its outcome: a
success keeps the refreshed credential (marked dirty) and proceeds to
the tail; a raise nullifies `creds` and falls back to the flow block. -/
def refreshStep (env : AuthEnv) : RefreshOutcome → AuthTrace
  | .refreshed c2 => finishAuth env (some c2) true 0 1 false
  | .raises => runFlow env 1

/-- The load step of `authenticate_gmail` (lines 56-65): `creds` after
the `os.path.exists` check and the `from_authorized_user_file` attempt
(a load failure leaves `creds = None`). -/
def loadCreds (env : AuthEnv) : Option Cred :=
  if env.tokenFileExists then env.loadResult else none

/-- The `if creds:` validity dispatch (lines 67-81): a valid credential
goes straight to the tail; an expired one with a refresh token is
refreshed; anything else (and an absent credential) falls back to the
flow block. -/
def credStep (env : AuthEnv) : Option Cred → AuthTrace
  | some c =>
    if c.valid then finishAuth env (some c) false 0 0 false
    else if c.expired && c.refresh_token then
      refreshStep env env.refreshResult
    else runFlow env 0
  | none => runFlow env 0

/-- Shallow embedding of `authenticate_gmail` (gmail_archiver.py,
lines 50-133): load the stored token if present, keep it if valid,
refresh it if expired and refreshable (falling back to the interactive
flow when the refresh raises), otherwise fall back to the interactive
flow, then save / final-check / build. -/
def authenticate_gmail (env : AuthEnv) : AuthTrace :=
  credStep env (loadCreds env)

/-! ### Listing lemmas -/

/-- Running the pagination loop over a prefix of non-raising, non-empty
pages followed by a page whose `messages` field is absent or empty:
the loop executes one request per prefix page plus one for the empty
page, obtains one continuation request per prefix page, accumulates
exactly the prefix pages' ids, and then `break`s — pages after the
empty one are never requested. -/
lemma fetchGo_break (pre : List Page) (p : Page) (post : List Page)
    (hpre : ∀ q ∈ pre, q.raises = false ∧ q.msgIds ≠ [])
    (hp : p.raises = false) (hempty : p.msgIds = []) :
    fetchGo (pre ++ p :: post) =
      ⟨(pre.map Page.msgIds).flatten, pre.length + 1, pre.length, false⟩ := by
  induction pre with
  | nil => simp [fetchGo, hp, hempty]
  | cons q rest ih =>
    obtain ⟨hq, hqne⟩ := hpre q (List.mem_cons_self ..)
    have ih2 := ih fun r hr => hpre r (List.mem_cons_of_mem _ hr)
    simp [fetchGo, hq, hqne, ih2]

/-- Running the pagination loop over a prefix of non-raising, non-empty
pages followed by a page whose request raises: the exception flag is
set (so the caller's `except` handler discards everything). -/
lemma fetchGo_raise (pre : List Page) (p : Page) (post : List Page)
    (hpre : ∀ q ∈ pre, q.raises = false ∧ q.msgIds ≠ [])
    (hp : p.raises = true) :
    (fetchGo (pre ++ p :: post)).failed = true := by
  induction pre with
  | nil => simp [fetchGo, hp]
  | cons q rest ih =>
    obtain ⟨hq, hqne⟩ := hpre q (List.mem_cons_self ..)
    have ih2 := ih fun r hr => hpre r (List.mem_cons_of_mem _ hr)
    simp [fetchGo, hq, hqne, ih2]

/-- One iteration of the pagination loop on a non-raising page with a
non-empty `messages` field: its ids are appended and the loop moves to
the request `list_next` returns. -/
lemma fetchGo_cons_ok (p : Page) (rest : List Page)
    (hp : p.raises = false) (hne : p.msgIds ≠ []) :
    fetchGo (p :: rest) =
      ⟨p.msgIds ++ (fetchGo rest).ids, (fetchGo rest).executes + 1,
        if rest = [] then (fetchGo rest).contRequests
          else (fetchGo rest).contRequests + 1,
        (fetchGo rest).failed⟩ := by
  simp [fetchGo, hp, hne]

/-- Pagination over a chain of single-message pages: all ids are
collected in page order, one execute per page, one continuation request
per page after the first, no exception. -/
lemma fetchGo_singletons (ids : List String) (h : ids ≠ []) :
    fetchGo (ids.map fun s => ⟨some [s], false⟩) =
      ⟨ids, ids.length, ids.length - 1, false⟩ := by
  induction ids with
  | nil => exact absurd rfl h
  | cons x rest ih =>
    cases rest with
    | nil => simp [fetchGo, Page.msgIds]
    | cons y rest2 =>
      have ih2 := ih (by simp)
      rw [List.map_cons, fetchGo_cons_ok _ _ rfl (by simp [Page.msgIds]), ih2]
      simp [Page.msgIds]

/-! ### Archiving lemmas -/

/-- The archive loop issues the mutation for every id, in input order:
no per-item failure short-circuits it. -/
lemma archiveGo_calls (r : Nat → Bool) (i : Nat) (l : List String) :
    (archiveGo r i l).calls = l := by
  induction l generalizing i with
  | nil => rfl
  | cons m rest ih => simp [archiveGo, ih]

/-- The archive loop counts exactly the call indices whose mutation does
not raise. -/
lemma archiveGo_count (r : Nat → Bool) (i : Nat) (l : List String) :
    (archiveGo r i l).count =
      (List.range l.length).countP fun j => !r (i + j) := by
  induction l generalizing i with
  | nil => simp [archiveGo]
  | cons m rest ih =>
    have hfun : ((fun j => !r (i + j)) ∘ Nat.succ) = fun j => !r (i + 1 + j) := by
      funext j
      have hj : i + Nat.succ j = i + 1 + j := by omega
      simp [Function.comp_def, hj]
    simp only [archiveGo, ih (i + 1), List.length_cons,
      List.range_succ_eq_map, List.countP_cons, List.countP_map, hfun,
      Nat.add_zero]
    rcases Bool.dichotomy (r i) with hr | hr <;> simp [hr, Nat.add_comm]

/-- `archive_emails` issues one mutation per id, in input order. -/
lemma archive_calls (r : Nat → Bool) (ids : List String) :
    (archive_emails r ids).calls = ids := by
  rcases eq_or_ne ids [] with h | h
  · subst h; rfl
  · simp only [archive_emails, if_neg h]
    exact archiveGo_calls r 0 ids

/-- The count `archive_emails` returns is the number of input positions
whose mutation completed without raising. -/
lemma archive_count (r : Nat → Bool) (ids : List String) :
    (archive_emails r ids).count =
      (List.range ids.length).countP fun j => !r j := by
  rcases eq_or_ne ids [] with h | h
  · subst h; rfl
  · simp only [archive_emails, if_neg h]
    simpa using archiveGo_count r 0 ids

/-- The returned count never exceeds the input length. -/
lemma archive_count_le (r : Nat → Bool) (ids : List String) :
    (archive_emails r ids).count ≤ ids.length := by
  rw [archive_count]
  simpa using List.countP_le_length (l := List.range ids.length)
    (p := fun j => !r j)

/-! ### Credential lemmas -/

/-- The save / final-check / build tail never launches the flow: it
reports exactly the launches already recorded. -/
lemma finishAuth_flowRuns (env : AuthEnv) (creds : Option Cred)
    (d : Bool) (fr ra : Nat) (re : Bool) :
    (finishAuth env creds d fr ra re).flowRuns = fr := by
  unfold finishAuth
  cases creds with
  | none => rfl
  | some c => by_cases hv : c.valid = true <;> simp [hv]

/-- The tail never refreshes: it reports the refresh attempts already
recorded. -/
lemma finishAuth_refreshAttempts (env : AuthEnv) (creds : Option Cred)
    (d : Bool) (fr ra : Nat) (re : Bool) :
    (finishAuth env creds d fr ra re).refreshAttempts = ra := by
  unfold finishAuth
  cases creds with
  | none => rfl
  | some c => by_cases hv : c.valid = true <;> simp [hv]

/-- The tail preserves the record of whether the fallback block was
reached. -/
lemma finishAuth_reached (env : AuthEnv) (creds : Option Cred)
    (d : Bool) (fr ra : Nat) (re : Bool) :
    (finishAuth env creds d fr ra re).reachedNoCred = re := by
  unfold finishAuth
  cases creds with
  | none => rfl
  | some c => by_cases hv : c.valid = true <;> simp [hv]

/-- If the tail returns a service over credential `c`, then `c` is the
credential it was handed and its validity flag is true (the final
`if not creds or not creds.valid` check passed). -/
lemma finishAuth_result (env : AuthEnv) (creds : Option Cred) (d : Bool)
    (fr ra : Nat) (re : Bool) (c : Cred)
    (h : (finishAuth env creds d fr ra re).result = some c) :
    creds = some c ∧ c.valid = true := by
  unfold finishAuth at h
  cases creds with
  | none => simp at h
  | some c0 =>
    by_cases hv : c0.valid = true
    · rcases Bool.dichotomy env.buildOk with hb | hb <;> simp [hv, hb] at h
      subst h
      exact ⟨rfl, hv⟩
    · simp [hv] at h

/-- When `credentials.json` is absent, the fallback block returns `None`
at once: no flow launch, no build, only the refresh attempts already
made. -/
lemma runFlow_config_false (env : AuthEnv) (ra : Nat)
    (h : env.configExists = false) :
    runFlow env ra = ⟨none, 0, ra, 0, true, false⟩ := by
  simp [runFlow, h]

/-- The flow attempt records exactly one flow launch, whatever its
outcome. -/
lemma flowStep_flowRuns (env : AuthEnv) (ra : Nat) (f : FlowOutcome) :
    (flowStep env ra f).flowRuns = 1 := by
  cases f <;> simp [flowStep, finishAuth_flowRuns]

/-- The flow attempt reports the refresh attempts already made. -/
lemma flowStep_refreshAttempts (env : AuthEnv) (ra : Nat)
    (f : FlowOutcome) :
    (flowStep env ra f).refreshAttempts = ra := by
  cases f <;> simp [flowStep, finishAuth_refreshAttempts]

/-- If the flow attempt yields a service over credential `c`, the flow
granted exactly `c` and its validity flag is true. -/
lemma flowStep_result (env : AuthEnv) (ra : Nat) (f : FlowOutcome)
    (c : Cred) (h : (flowStep env ra f).result = some c) :
    f = FlowOutcome.granted c ∧ c.valid = true := by
  cases f with
  | raises => simp [flowStep] at h
  | noCreds =>
    rw [flowStep] at h
    exact absurd (finishAuth_result _ _ _ _ _ _ _ h).1 (by simp)
  | granted c0 =>
    rw [flowStep] at h
    obtain ⟨h1, h2⟩ := finishAuth_result _ _ _ _ _ _ _ h
    obtain rfl := Option.some.inj h1
    exact ⟨rfl, h2⟩

/-- When `credentials.json` is present, the fallback block launches the
interactive flow exactly once. -/
lemma runFlow_flowRuns_one (env : AuthEnv) (ra : Nat)
    (h : env.configExists = true) :
    (runFlow env ra).flowRuns = 1 := by
  rw [runFlow, if_pos h]
  exact flowStep_flowRuns env ra env.flowResult

/-- The fallback block launches the interactive flow at most once. -/
lemma runFlow_flowRuns_le (env : AuthEnv) (ra : Nat) :
    (runFlow env ra).flowRuns ≤ 1 := by
  rcases Bool.dichotomy env.configExists with h | h
  · rw [runFlow_config_false env ra h]
    exact Nat.zero_le 1
  · rw [runFlow_flowRuns_one env ra h]

/-- The fallback block reports the refresh attempts already made. -/
lemma runFlow_refreshAttempts (env : AuthEnv) (ra : Nat) :
    (runFlow env ra).refreshAttempts = ra := by
  rcases Bool.dichotomy env.configExists with h | h
  · rw [runFlow_config_false env ra h]
  · rw [runFlow, if_pos h]
    exact flowStep_refreshAttempts env ra env.flowResult

/-- If the fallback block returns a service over credential `c`, then
`c` is the credential the interactive flow produced, with its validity
flag true. -/
lemma runFlow_result (env : AuthEnv) (ra : Nat) (c : Cred)
    (h : (runFlow env ra).result = some c) :
    env.flowResult = FlowOutcome.granted c ∧ c.valid = true := by
  rcases Bool.dichotomy env.configExists with hc | hc
  · rw [runFlow_config_false env ra hc] at h
    simp at h
  · rw [runFlow, if_pos hc] at h
    exact flowStep_result env ra env.flowResult c h

/-- One run of `authenticate_gmail` launches the interactive flow at
most once: there is a single flow call site, reached at most once. -/
lemma auth_flowRuns_le_one (env : AuthEnv) :
    (authenticate_gmail env).flowRuns ≤ 1 := by
  unfold authenticate_gmail
  cases loadCreds env with
  | none => exact runFlow_flowRuns_le env 0
  | some c =>
    rw [credStep]
    by_cases hv : c.valid = true
    · simp [hv, finishAuth_flowRuns]
    · rw [if_neg hv]
      by_cases he : (c.expired && c.refresh_token) = true
      · rw [if_pos he]
        cases env.refreshResult with
        | refreshed c2 => simp [refreshStep, finishAuth_flowRuns]
        | raises => exact runFlow_flowRuns_le env 1
      · rw [if_neg he]
        exact runFlow_flowRuns_le env 0

/-- Counting helper: in `range n`, when the predicate `r` holds at
exactly the one index `i < n`, the positions where `r` fails number
`n - 1`. -/
lemma countP_single_fail (r : Nat → Bool) (n i : Nat) (hi : i < n)
    (hr : ∀ j, j < n → (r j = true ↔ j = i)) :
    (List.range n).countP (fun j => !r j) = n - 1 := by
  have heq : (List.range n).countP (fun j => !r j)
      = (List.range n).countP (fun j => !(j == i)) := by
    refine List.countP_congr fun x hx => ?_
    rw [List.mem_range] at hx
    by_cases hxi : x = i
    · subst hxi
      simp [(hr x hx).mpr rfl]
    · have hrx : r x = false := by
        rcases Bool.dichotomy (r x) with h | h
        · exact h
        · exact absurd ((hr x hx).mp h) hxi
      simp [hrx, hxi]
  have h3 : (List.range n).countP (fun j => j == i) = 1 := by
    have hc := List.count_eq_one_of_mem (List.nodup_range n)
      (List.mem_range.mpr hi)
    rw [List.count_eq_countP] at hc
    exact hc
  have h2 : n = (List.range n).countP (fun j => j == i)
      + (List.range n).countP (fun j => !(j == i)) := by
    have h0 := List.length_eq_countP_add_countP (fun j => j == i)
      (List.range n)
    rw [List.length_range] at h0
    simpa using h0
  omega

/-! ### Claims about the listing operation -/

/-- The listing service of the C1 counterexample: a first page whose
`messages` field is present but empty, carrying a continuation to a
second page holding `"m1"`. -/
def emptyThenMore : List Page := [⟨some [], false⟩, ⟨some ["m1"], false⟩]

/-- C1, counterexample: `fetch_inbox_emails` treats an empty page as a
stopping condition, not as zero items to skip.  On a service whose
first page is empty and whose second page holds `"m1"`, the returned
sequence is empty — `"m1"`, which lies on a page after the empty page,
is not included — and only one page request is ever executed, so the
continuation protocol is not followed past the empty page. -/
theorem claim1_counterexample :
    fetch_inbox_emails emptyThenMore = [] ∧
    "m1" ∉ fetch_inbox_emails emptyThenMore ∧
    (fetchGo emptyThenMore).executes = 1 ∧
    emptyThenMore[1]? = some ⟨some ["m1"], false⟩ := by
  refine ⟨rfl, ?_, rfl, rfl⟩
  rw [show fetch_inbox_emails emptyThenMore = [] from rfl]
  simp

/-- C1, amended: a page whose `messages` field is absent or empty is
treated as the end of the listing, not as an error: the identifiers
accumulated from the earlier (non-empty, non-raising) pages are kept
and returned, but the loop `break`s there, so no further page request
is issued and identifiers on pages after the empty page are not
included. -/
theorem claim1_amended (pre : List Page) (p : Page) (post : List Page)
    (hpre : ∀ q ∈ pre, q.raises = false ∧ q.msgIds ≠ [])
    (hp : p.raises = false) (hempty : p.msgIds = []) :
    fetch_inbox_emails (pre ++ p :: post) = (pre.map Page.msgIds).flatten ∧
    (fetchGo (pre ++ p :: post)).executes = pre.length + 1 := by
  have h := fetchGo_break pre p post hpre hp hempty
  simp only [fetch_inbox_emails]
  rw [h]
  exact ⟨rfl, rfl⟩

/-- Witness for the amended C1 at a concrete input: one non-empty page,
then an empty page, then a page holding `"z"`; the first page's ids are
returned, `"z"` is not. -/
theorem claim1_amended_witness :
    fetch_inbox_emails
        [⟨some ["a", "b"], false⟩, ⟨some [], false⟩, ⟨some ["z"], false⟩]
      = ["a", "b"] :=
  (claim1_amended [⟨some ["a", "b"], false⟩] ⟨some [], false⟩
    [⟨some ["z"], false⟩] (by decide) rfl rfl).1

/-- C2: given `N ≥ 1` pages each holding exactly one message, linked by
a continuation chain of length `N`, `fetch_inbox_emails` returns all
`N` identifiers in page order (their concatenation, no reordering, no
deduplication), executes exactly `N` page requests, and obtains exactly
`N - 1` of them through the continuation protocol (`list_next`). -/
theorem claim2_pagination (ids : List String) (h : ids ≠ []) :
    fetch_inbox_emails (ids.map fun s => ⟨some [s], false⟩) = ids ∧
    (fetchGo (ids.map fun s => ⟨some [s], false⟩)).executes = ids.length ∧
    (fetchGo (ids.map fun s => ⟨some [s], false⟩)).contRequests
      = ids.length - 1 := by
  have hg := fetchGo_singletons ids h
  simp only [fetch_inbox_emails]
  rw [hg]
  exact ⟨rfl, rfl, rfl⟩

/-- Witness for C2 at `N = 3`. -/
theorem claim2_pagination_witness :
    fetch_inbox_emails (["m1", "m2", "m3"].map fun s => ⟨some [s], false⟩)
      = ["m1", "m2", "m3"] :=
  (claim2_pagination ["m1", "m2", "m3"] (by simp)).1

/-- C4: if the request for any reached page raises (the earlier pages
being non-empty and non-raising, so the raising page is indeed
reached), `fetch_inbox_emails` returns the empty sequence, discarding
every identifier accumulated from the earlier pages; the exception is
caught, not propagated (the embedded function is total and returns a
plain list). -/
theorem claim4_listing_abort (pre : List Page) (p : Page)
    (post : List Page)
    (hpre : ∀ q ∈ pre, q.raises = false ∧ q.msgIds ≠ [])
    (hp : p.raises = true) :
    fetch_inbox_emails (pre ++ p :: post) = [] := by
  simp only [fetch_inbox_emails]
  rw [fetchGo_raise pre p post hpre hp]
  rfl

/-- Witness for C4 at a concrete input: the first page yields `"a"`,
the second raises; the whole listing yields `[]`. -/
theorem claim4_listing_abort_witness :
    fetch_inbox_emails [⟨some ["a"], false⟩, ⟨some ["b"], true⟩] = [] :=
  claim4_listing_abort [⟨some ["a"], false⟩] ⟨some ["b"], true⟩ []
    (by decide) rfl

/-! ### Claims about the archive operation -/

/-- C3: on an input of `K` identifiers where the mutation raises at
exactly one call index `i` (and only there), `archive_emails` returns
`K - 1`, and the mutation is invoked exactly `K` times, once per
identifier in input order — the failure at `i` does not prevent the
mutations after `i`. -/
theorem claim3_partial_archive (r : Nat → Bool) (ids : List String)
    (i : Nat) (hi : i < ids.length)
    (hr : ∀ j, j < ids.length → (r j = true ↔ j = i)) :
    (archive_emails r ids).count = ids.length - 1 ∧
    (archive_emails r ids).calls = ids := by
  refine ⟨?_, archive_calls r ids⟩
  rw [archive_count]
  exact countP_single_fail r ids.length i hi hr

/-- Witness for C3: three ids, the mutation raising exactly at index 1;
the count is 2 and all three mutations are issued in order. -/
theorem claim3_partial_archive_witness :
    (archive_emails (fun j => j == 1) ["m1", "m2", "m3"]).count = 2 ∧
    (archive_emails (fun j => j == 1) ["m1", "m2", "m3"]).calls
      = ["m1", "m2", "m3"] :=
  claim3_partial_archive (fun j => j == 1) ["m1", "m2", "m3"] 1
    (by decide) (by decide)

/-- C9: on the empty input list, `archive_emails` returns 0 and issues
zero mutation requests, whatever the per-item outcomes would be. -/
theorem claim9_empty_input (r : Nat → Bool) :
    (archive_emails r []).count = 0 ∧ (archive_emails r []).calls = [] :=
  ⟨rfl, rfl⟩

/-- C10: for every input list and every pattern of per-item success and
failure, the count `archive_emails` returns equals exactly the number
of input positions whose mutation completed without raising, and (being
a natural number at least 0) never exceeds the input length. -/
theorem claim10_count_invariant (r : Nat → Bool) (ids : List String) :
    (archive_emails r ids).count
        = (List.range ids.length).countP (fun j => !r j) ∧
    (archive_emails r ids).count ≤ ids.length :=
  ⟨archive_count r ids, archive_count_le r ids⟩

/-! ### Claims about the credential operation -/

/-- The flow attempt always happens inside the no-usable-credential
fallback block. -/
lemma flowStep_reached (env : AuthEnv) (ra : Nat) (f : FlowOutcome) :
    (flowStep env ra f).reachedNoCred = true := by
  cases f <;> simp [flowStep, finishAuth_reached]

/-- C5: starting from a loaded, expired credential carrying a refresh
token, if the refresh succeeds the interactive grant flow is never
invoked; and in every run of `authenticate_gmail` the flow is launched
at most once. -/
theorem claim5_refresh_precedence (env : AuthEnv) (c c2 : Cred)
    (hfile : env.tokenFileExists = true)
    (hload : env.loadResult = some c)
    (hexp : c.expired = true)
    (hrt : c.refresh_token = true)
    (href : env.refreshResult = RefreshOutcome.refreshed c2) :
    (authenticate_gmail env).flowRuns = 0 ∧
    ∀ env2 : AuthEnv, (authenticate_gmail env2).flowRuns ≤ 1 := by
  refine ⟨?_, auth_flowRuns_le_one⟩
  have hl : loadCreds env = some c := by simp [loadCreds, hfile, hload]
  unfold authenticate_gmail
  rw [hl, credStep]
  by_cases hv : c.valid = true
  · rw [if_pos hv]
    exact finishAuth_flowRuns env (some c) false 0 0 false
  · rw [if_neg hv, if_pos (by simp [hexp, hrt]), href]
    exact finishAuth_flowRuns env (some c2) true 0 1 false

/-- Environment of the C5 witness: a loaded, expired, refreshable
credential whose refresh succeeds. -/
def refreshSuccessEnv : AuthEnv :=
  ⟨true, some ⟨false, true, true⟩, .refreshed ⟨true, false, true⟩, true,
    .noCreds, true, true⟩

/-- Witness for C5 at a concrete environment. -/
theorem claim5_refresh_precedence_witness :
    (authenticate_gmail refreshSuccessEnv).flowRuns = 0 :=
  (claim5_refresh_precedence refreshSuccessEnv ⟨false, true, true⟩
    ⟨true, false, true⟩ rfl rfl rfl rfl rfl).1

/-- Environment of the C6 counterexample: a loaded, expired,
refreshable credential whose refresh raises — but `credentials.json`
is absent. -/
def refreshFailNoConfigEnv : AuthEnv :=
  ⟨true, some ⟨false, true, true⟩, .raises, false,
    .granted ⟨true, false, true⟩, true, true⟩

/-- C6, counterexample: in a run starting from a loaded, expired
credential with a refresh token whose refresh raises, the interactive
grant flow is NOT invoked exactly once when `credentials.json` is
absent: the operation returns `None` without launching the flow at
all. -/
theorem claim6_counterexample :
    refreshFailNoConfigEnv.tokenFileExists = true ∧
    refreshFailNoConfigEnv.loadResult = some ⟨false, true, true⟩ ∧
    refreshFailNoConfigEnv.refreshResult = RefreshOutcome.raises ∧
    (authenticate_gmail refreshFailNoConfigEnv).flowRuns = 0 ∧
    (authenticate_gmail refreshFailNoConfigEnv).result = none := by
  decide

/-- C6, amended: starting from a loaded, expired credential carrying a
refresh token whose refresh raises, PROVIDED the client-secret
configuration file is present, the interactive grant flow is invoked
exactly once, and any credential the operation returns with is the one
the grant flow produced — never the loaded one; the refresh failure by
itself is not terminal (the run proceeds into the fallback block
instead of stopping). -/
theorem claim6_amended (env : AuthEnv) (c : Cred)
    (hfile : env.tokenFileExists = true)
    (hload : env.loadResult = some c)
    (hvalid : c.valid = false)
    (hexp : c.expired = true)
    (hrt : c.refresh_token = true)
    (href : env.refreshResult = RefreshOutcome.raises)
    (hcfg : env.configExists = true) :
    (authenticate_gmail env).flowRuns = 1 ∧
    (authenticate_gmail env).reachedNoCred = true ∧
    ∀ c2, (authenticate_gmail env).result = some c2 →
      env.flowResult = FlowOutcome.granted c2 := by
  have hl : loadCreds env = some c := by simp [loadCreds, hfile, hload]
  have hrun : authenticate_gmail env = runFlow env 1 := by
    unfold authenticate_gmail
    rw [hl, credStep, if_neg (by simp [hvalid]),
      if_pos (by simp [hexp, hrt]), href]
    rfl
  rw [hrun]
  refine ⟨runFlow_flowRuns_one env 1 hcfg, ?_, ?_⟩
  · rw [runFlow, if_pos hcfg]
    exact flowStep_reached env 1 env.flowResult
  · intro c2 h
    exact (runFlow_result env 1 c2 h).1

/-- Environment of the C6 witness: as the counterexample but with
`credentials.json` present; the flow grants a valid credential. -/
def refreshFailConfigEnv : AuthEnv :=
  ⟨true, some ⟨false, true, true⟩, .raises, true,
    .granted ⟨true, false, true⟩, true, true⟩

/-- Witness for the amended C6 at a concrete environment. -/
theorem claim6_amended_witness :
    (authenticate_gmail refreshFailConfigEnv).flowRuns = 1 :=
  (claim6_amended refreshFailConfigEnv ⟨false, true, true⟩
    rfl rfl rfl rfl rfl rfl rfl).1

/-- Environment of the C7 counterexample: a loaded, expired,
refreshable credential whose refresh raises, and no
`credentials.json`. -/
def refreshThenMissingConfigEnv : AuthEnv :=
  ⟨true, some ⟨false, true, true⟩, .raises, false, .noCreds, true, true⟩

/-- C7, counterexample: with `credentials.json` absent, a run that
reaches the no-usable-credential state does return no credential, but
NOT always before any network call: when the run started from a
loaded, expired, refreshable credential, a refresh network call was
already attempted before the failure. -/
theorem claim7_counterexample :
    refreshThenMissingConfigEnv.configExists = false ∧
    (authenticate_gmail refreshThenMissingConfigEnv).reachedNoCred
      = true ∧
    (authenticate_gmail refreshThenMissingConfigEnv).result = none ∧
    networkCalls (authenticate_gmail refreshThenMissingConfigEnv)
      ≠ 0 := by
  decide

/-- C7, amended: with `credentials.json` absent, a run that reaches the
no-usable-credential state returns no credential, launches no
interactive flow and builds no service; the only network call possibly
made before the failure is a single token-refresh attempt for a
loaded, expired credential. -/
theorem claim7_amended (env : AuthEnv)
    (hcfg : env.configExists = false)
    (hreach : (authenticate_gmail env).reachedNoCred = true) :
    (authenticate_gmail env).result = none ∧
    (authenticate_gmail env).flowRuns = 0 ∧
    (authenticate_gmail env).buildAttempts = 0 ∧
    networkCalls (authenticate_gmail env)
      = (authenticate_gmail env).refreshAttempts ∧
    (authenticate_gmail env).refreshAttempts ≤ 1 := by
  have hcases : authenticate_gmail env = runFlow env 0 ∨
      authenticate_gmail env = runFlow env 1 ∨
      (authenticate_gmail env).reachedNoCred = false := by
    unfold authenticate_gmail
    cases loadCreds env with
    | none => exact Or.inl rfl
    | some c =>
      rw [credStep]
      by_cases hv : c.valid = true
      · rw [if_pos hv]
        exact Or.inr (Or.inr (finishAuth_reached env (some c) false 0 0
          false))
      · rw [if_neg hv]
        by_cases he : (c.expired && c.refresh_token) = true
        · rw [if_pos he]
          cases env.refreshResult with
          | refreshed c2 =>
            exact Or.inr (Or.inr (finishAuth_reached env (some c2) true 0
              1 false))
          | raises => exact Or.inr (Or.inl rfl)
        · rw [if_neg he]
          exact Or.inl rfl
  rcases hcases with hE | hE | hE
  · rw [hE, runFlow_config_false env 0 hcfg]
    exact ⟨rfl, rfl, rfl, rfl, Nat.zero_le 1⟩
  · rw [hE, runFlow_config_false env 1 hcfg]
    exact ⟨rfl, rfl, rfl, rfl, Nat.le_refl 1⟩
  · rw [hE] at hreach
    exact absurd hreach (by simp)

/-- Environment of the C7 witness: no stored token and no
`credentials.json`; the run fails with zero network calls. -/
def missingConfigEnv : AuthEnv :=
  ⟨false, none, .raises, false, .noCreds, true, true⟩

/-- Witness for the amended C7 at a concrete environment. -/
theorem claim7_amended_witness :
    (authenticate_gmail missingConfigEnv).result = none ∧
    networkCalls (authenticate_gmail missingConfigEnv)
      = (authenticate_gmail missingConfigEnv).refreshAttempts :=
  ⟨(claim7_amended missingConfigEnv rfl rfl).1,
    (claim7_amended missingConfigEnv rfl rfl).2.2.2.1⟩

/-- C8: `authenticate_gmail` returns an authorized service only over a
credential whose validity flag is true after all load / refresh /
grant / persist steps; in every other case its result is `None` (the
contrapositive of this statement). -/
theorem claim8_valid_only (env : AuthEnv) (c : Cred)
    (h : (authenticate_gmail env).result = some c) :
    c.valid = true := by
  rw [authenticate_gmail] at h
  cases hlc : loadCreds env with
  | none =>
    rw [hlc] at h
    exact (runFlow_result env 0 c (by exact h)).2
  | some c0 =>
    rw [hlc] at h
    simp only [credStep] at h
    by_cases hv : c0.valid = true
    · rw [if_pos hv] at h
      obtain ⟨h1, h2⟩ := finishAuth_result _ _ _ _ _ _ _ h
      obtain rfl := Option.some.inj h1
      exact h2
    · rw [if_neg hv] at h
      by_cases he : (c0.expired && c0.refresh_token) = true
      · rw [if_pos he] at h
        cases hrr : env.refreshResult with
        | refreshed c2 =>
          rw [hrr] at h
          obtain ⟨h1, h2⟩ := finishAuth_result env (some c2) true 0 1
            false c (by exact h)
          obtain rfl := Option.some.inj h1
          exact h2
        | raises =>
          rw [hrr] at h
          exact (runFlow_result env 1 c (by exact h)).2
      · rw [if_neg he] at h
        exact (runFlow_result env 0 c h).2

/-- Environment of the C8 witness: a loaded, valid credential and a
successful build. -/
def validTokenEnv : AuthEnv :=
  ⟨true, some ⟨true, false, true⟩, .raises, true, .noCreds, true, true⟩

/-- Witness for C8 at a concrete environment where a service is
returned. -/
theorem claim8_valid_only_witness : (⟨true, false, true⟩ : Cred).valid
    = true :=
  claim8_valid_only validTokenEnv ⟨true, false, true⟩ (by decide)

end GmailArchiver
